import Mathlib

/-!
Verification development for the `rhttp` client library.

The Rust sources are shallowly embedded: Rust strings are modelled as lists
of characters (`Str`), byte buffers as `List Nat` (each entry < 256 where it
matters, with `% 256` making the `as u8` casts explicit), fallible code
returns `Except Error _`, and the blocking socket used by the SOCKS5
handshake is modelled by a `NetState` holding the bytes the peer will send
(`input`) and the bytes the client has written so far (`written`).
-/

set_option maxRecDepth 8192

namespace Rhttp

/-- Decidable equality of results, for evaluating the model at concrete
inputs. -/
instance {ε α : Type} [DecidableEq ε] [DecidableEq α] : DecidableEq (Except ε α) :=
  fun a b =>
    match a, b with
    | .ok x, .ok y => if h : x = y then isTrue (by rw [h]) else isFalse (by simp [h])
    | .error x, .error y => if h : x = y then isTrue (by rw [h]) else isFalse (by simp [h])
    | .ok _, .error _ => isFalse (by simp)
    | .error _, .ok _ => isFalse (by simp)

/-- Strings of the Rust source, modelled as lists of characters.  All inputs
exercised by the claims are ASCII, where one character is one byte. -/
abbrev Str := List Char

/-- Substring test, via the underlying character lists. -/
def strHas (pat s : Str) : Bool := decide (pat <:+: s)

/-- Everything before the first occurrence of `c` (the whole string when `c`
does not occur); models Rust `s.splitn(2, c).nth(0)`. -/
def takeUntilChar (c : Char) (s : Str) : Str := s.takeWhile (· ≠ c)

/-- Everything after the last occurrence of `c` (the whole string when `c`
does not occur); models Rust `s.rsplitn(2, c).nth(0)`. -/
def afterLastChar (c : Char) (s : Str) : Str :=
  (s.reverse.takeWhile (· ≠ c)).reverse

/-- Split at the first occurrence of the separator `sep`: returns the part
before it and the part after it, or `none` when `sep` does not occur. -/
def splitOnFirst (sep : Str) : Str → Option (Str × Str)
  | [] => if sep.isEmpty then some ([], []) else none
  | c :: t =>
    if sep.isPrefixOf (c :: t) then some ([], (c :: t).drop sep.length)
    else (splitOnFirst sep t).map (fun p => (c :: p.1, p.2))

/-- Split at every occurrence of the character `c`; models Rust `split(c)`. -/
def splitChar (c : Char) : Str → List Str
  | [] => [[]]
  | d :: rest =>
    let r := splitChar c rest
    if d = c then [] :: r
    else
      match r with
      | [] => [[d]]
      | a :: t => (d :: a) :: t

/-- Split at the last occurrence of the character `c`, when it occurs. -/
def splitAtLastChar (c : Char) (s : Str) : Option (Str × Str) :=
  if s.contains c then
    some (((s.reverse.dropWhile (· ≠ c)).drop 1).reverse, afterLastChar c s)
  else none

/-- Decimal value of a digit string. -/
def digitsToNat (s : Str) : Nat := s.foldl (fun n c => n * 10 + (c.toNat - 48)) 0

/-- Decimal rendering of a number, as characters. -/
def natDecimal (n : Nat) : Str := (Nat.repr n).toList

/-- Bytes of an ASCII string literal. -/
def strBytes (s : String) : List Nat := s.toList.map Char.toNat

/-- Host of a parsed URL, as in the `url` crate consumed by the source:
an IPv4 address (4 octets), an IPv6 address (16 octets) or a domain name
(kept as its bytes, which is what `Addr::host_vec` extracts). -/
inductive Host where
  | ipv4 (octets : List Nat)
  | ipv6 (octets : List Nat)
  | domain (name : List Nat)
deriving DecidableEq, Repr

/-- Modelled from the spec: the crate's `errors` module (referenced by
`src/socks.rs` and `src/addr.rs` as `crate::errors`) is not under `src/`;
its error type is modelled after `src/error.rs` and spec §7, which carry one
variant per failure kind.  The auth sub-negotiation failure that
`src/socks.rs` spells `Error::NotClosedConnection` is the variant
`src/error.rs` and the spec name `AuthFailure` (displayed "Failure,
connection must be closed").  Payload-carrying variants (`Io`, `UrlParse`,
TLS errors) are modelled without their payloads. -/
inductive Error where
  | IoError
  | UrlParse
  | InvalidHost
  | InvalidServerVersion
  | InvalidAuthMethod
  | InvalidAuthVersion
  | AuthFailure
  | WrongHttp
  | NativeTlsError
  | TlsConnectorError
  | InvalidAddressType
  | InvalidReservedByte
  | UnknownError
  | InvalidCommandProtocol
  | TtlExpired
  | RefusedByHost
  | HostUnreachable
  | NetworkUnreachable
  | InvalidRuleset
  | GeneralFailure
  | EmptyVec
  | UnsupportedProxy
deriving DecidableEq, Repr

/-- Parsed URL, as used by the source through the external `url` crate:
scheme, optional host, optional explicit port, and path. -/
structure Url where
  scheme : Str
  host : Option Host
  port : Option Nat
  path : Str
deriving DecidableEq, Repr

/-- Scheme charset check of the `url` crate: a letter followed by letters,
digits, `+`, `-` or `.`. -/
def schemeOk (s : Str) : Bool :=
  match s with
  | [] => false
  | c :: rest =>
    c.isAlpha && rest.all (fun d => d.isAlpha || d.isDigit || decide (d = '+')
      || decide (d = '-') || decide (d = '.'))

/-- Special schemes of the WHATWG URL standard (host parsing applies IPv4
recognition only for these). -/
def specialScheme (s : Str) : Bool :=
  decide (s = "http".toList) || decide (s = "https".toList)
    || decide (s = "ws".toList) || decide (s = "wss".toList)
    || decide (s = "ftp".toList) || decide (s = "file".toList)

/-- Default port table of the `url` crate (`port_or_known_default`). -/
def defaultPort (s : Str) : Option Nat :=
  if s = "http".toList then some 80
  else if s = "https".toList then some 443
  else if s = "ws".toList then some 80
  else if s = "wss".toList then some 443
  else if s = "ftp".toList then some 21
  else none

/-- Hex value of a group of hex digits (inputs lowercase). -/
def hexVal (s : Str) : Nat :=
  s.foldl (fun n c => n * 16 + (if c.isDigit then c.toNat - 48 else c.toNat - 87)) 0

/-- Check of one IPv6 group: one to four lowercase hex digits. -/
def hexGroupOk (g : Str) : Bool :=
  !g.isEmpty && decide (g.length ≤ 4)
    && g.all (fun c => c.isDigit || (decide ('a' ≤ c) && decide (c ≤ 'f')))

/-- Modelled collaborator: IPv6 literal parsing of the `url` crate, for
full and `::`-compressed lowercase forms, producing the 16 octets. -/
def parseIpv6 (s : Str) : Option (List Nat) :=
  let toOctets : List Nat → List Nat :=
    fun gs => gs.foldr (fun g acc => g / 256 :: g % 256 :: acc) []
  match splitOnFirst "::".toList s with
  | none =>
    let gs := splitChar ':' s
    if gs.length = 8 ∧ gs.all hexGroupOk then some (toOctets (gs.map hexVal))
    else none
  | some (l, r) =>
    if strHas "::".toList r then none
    else
      let gl := if l.isEmpty then [] else splitChar ':' l
      let gr := if r.isEmpty then [] else splitChar ':' r
      if (gl ++ gr).all hexGroupOk ∧ gl.length + gr.length ≤ 7 then
        some (toOctets (gl.map hexVal
          ++ List.replicate (8 - gl.length - gr.length) 0 ++ gr.map hexVal))
      else none

/-- Dotted-decimal IPv4 literal: exactly four all-digit labels, each at
most 255. -/
def parseDottedIpv4 (h : Str) : Option Host :=
  let parts := splitChar '.' h
  if parts.length = 4
      ∧ parts.all (fun p => !p.isEmpty && p.all Char.isDigit && decide (digitsToNat p ≤ 255)) then
    some (.ipv4 (parts.map digitsToNat))
  else none

/-- IPv4 host from a bare number (WHATWG host parsing treats an all-numeric
host of a special scheme as an IPv4 address). -/
def ipv4OfNat (n : Nat) : Host :=
  .ipv4 [n / 16777216 % 256, n / 65536 % 256, n / 256 % 256, n % 256]

/-- Modelled collaborator: host classification of the `url` crate.  For
special schemes a final all-digit label triggers the IPv4 parser; otherwise
the host is a domain (kept verbatim: inputs are assumed lowercase ASCII, so
the crate's lowercasing and punycoding are the identity).  Hosts of
non-special schemes are opaque and land in `domain`.  Forbidden host
characters make parsing fail. -/
def classifyHost (special : Bool) (h : Str) : Option Host :=
  if h.isEmpty then none
  else if h.any (fun c => decide (c = ':') || decide (c = '/') || decide (c = '@')
      || decide (c = '[') || decide (c = ']') || decide (c = '?') || decide (c = '#')
      || decide (c = ' ') || decide (c = '\\') || decide (c = '%')) then none
  else if special then
    if h.all Char.isDigit then
      let n := digitsToNat h
      if n < 4294967296 then some (ipv4OfNat n) else none
    else
      let lastLabel := (splitChar '.' h).getLastD []
      if !lastLabel.isEmpty && lastLabel.all Char.isDigit then parseDottedIpv4 h
      else some (.domain (h.map Char.toNat))
  else some (.domain (h.map Char.toNat))

/-- Port digits after the host: empty means no port, digits give the value,
which must fit a `u16`. -/
def parsePort (p : Str) : Option (Option Nat) :=
  if p.isEmpty then some none
  else if p.all Char.isDigit then
    let n := digitsToNat p
    if n < 65536 then some (some n) else none
  else none

/-- Modelled collaborator: authority parsing (host and optional port) of
the `url` crate.  User-info (`@`) is not modelled; the claims never use it. -/
def parseAuthority (special : Bool) (auth : Str) : Option (Option Host × Option Nat) :=
  if auth.isEmpty then none
  else if auth.headD ' ' = '[' then
    match splitOnFirst "]".toList (auth.drop 1) with
    | none => none
    | some (inside, rest) =>
      match rest with
      | [] => (parseIpv6 inside).map (fun o => (some (Host.ipv6 o), none))
      | ':' :: pstr =>
        (parseIpv6 inside).bind fun o =>
          (parsePort pstr).map (fun po => (some (Host.ipv6 o), po))
      | _ => none
  else
    match splitAtLastChar ':' auth with
    | none => (classifyHost special auth).map (fun h => (some h, none))
    | some (hstr, pstr) =>
      (classifyHost special hstr).bind fun h =>
        (parsePort pstr).map (fun po => (some h, po))

/-- Authority and path parsing behind the scheme separator. -/
def parseAfterScheme (sch rest : Str) : Option Url :=
  let authority := takeUntilChar '/' rest
  let after := rest.drop authority.length
  let path := if after.isEmpty then "/".toList else after
  match parseAuthority (specialScheme sch) authority with
  | none => none
  | some (h, po) => some ⟨sch, h, po, path⟩

/-- Modelled collaborator: `Url::parse` of the external `url` crate,
restricted to the absolute lowercase ASCII URLs the claims exercise
(query/fragment separation and user-info are not modelled; the scheme is
everything before the first `://`). -/
def Url.parse (s : Str) : Option Url :=
  match splitOnFirst "://".toList s with
  | none => none
  | some (sch, rest) => if schemeOk sch then parseAfterScheme sch rest else none

/-- Explicit port, or the scheme's default (`url::Url::port_or_known_default`). -/
def Url.portOrKnownDefault (u : Url) : Option Nat :=
  match u.port with
  | some p => some p
  | none => defaultPort u.scheme

/-- Target address of `src/addr.rs` and `src/socks.rs` (the two files carry
the same `Addr` implementation): a wrapper around a parsed URL. -/
structure Addr where
  url : Url
deriving DecidableEq, Repr

/-- Scheme-inference condition of `Addr::from_str` (`src/socks.rs` lines
19-28): the raw string contains a `:` and, in the part before the first
`/`, the part after the last `:` is `"443"`. -/
def inferIsSecure (s : Str) : Bool :=
  s.contains ':' && decide (afterLastChar ':' (takeUntilChar '/' s) = "443".toList)

/-- Model of `impl FromStr for Addr` (`src/socks.rs` lines 16-39 and
`src/addr.rs` lines 17-39): when the input has no scheme separator, prepend
`https://` or `http://` according to `inferIsSecure`, then parse. -/
def Addr.fromStr (s : Str) : Except Error Addr :=
  let raw :=
    if strHas "://".toList s then s
    else (if inferIsSecure s then "https://".toList else "http://".toList) ++ s
  match Url.parse raw with
  | none => .error .UrlParse
  | some u => .ok ⟨u⟩

/-- Model of `Addr::is_ssl`. -/
def Addr.is_ssl (a : Addr) : Bool := decide (a.url.scheme = "https".toList)

/-- Model of `Addr::addr_type`. -/
def Addr.addr_type (a : Addr) : Except Error Nat :=
  match a.url.host with
  | some (Host.ipv4 _) => .ok 1
  | some (Host.ipv6 _) => .ok 4
  | some (Host.domain _) => .ok 3
  | none => .error .InvalidHost

/-- Display form of an IPv4 address (`Ipv4Addr::to_string`). -/
def ipv4Display (o : List Nat) : Str :=
  List.intercalate ".".toList (o.map natDecimal)

/-- Display form of an IPv6 address.  The source uses `Ipv6Addr::to_string`
(compressed form); the model joins the eight groups without compression.  No
theorem relies on this display form. -/
def ipv6Display (o : List Nat) : Str :=
  let rec groups : List Nat → List Nat
    | a :: b :: t => (a * 256 + b) :: groups t
    | _ => []
  List.intercalate ":".toList ((groups o).map (Nat.toDigits 16))

/-- Model of `Addr::host`: the display string of the host.  For a domain the
source converts the stored bytes back to a string (`to_string`); the model
maps the bytes back to characters, which is exact on ASCII. -/
def Addr.host (a : Addr) : Except Error Str :=
  match a.url.host with
  | some (Host.ipv4 o) => .ok (ipv4Display o)
  | some (Host.ipv6 o) => .ok (ipv6Display o)
  | some (Host.domain d) => .ok (d.map Char.ofNat)
  | none => .error .InvalidHost

/-- Model of `Addr::host_vec`: raw host bytes (octets, or domain bytes). -/
def Addr.host_vec (a : Addr) : Except Error (List Nat) :=
  match a.url.host with
  | some (Host.ipv4 o) => .ok o
  | some (Host.ipv6 o) => .ok o
  | some (Host.domain d) => .ok d
  | none => .error .InvalidHost

/-- Model of `Addr::port`: big-endian port bytes of the effective port, or
`[0, 80]` when no port is resolvable. -/
def Addr.port (a : Addr) : List Nat :=
  match a.url.portOrKnownDefault with
  | some p => [(p >>> 8) &&& 0xff, p &&& 0xff]
  | none => [0, 80]

/-- Model of `Addr::to_vec` (`src/socks.rs` lines 81-96, identically
`src/addr.rs` lines 81-96): address-type byte, host bytes (with a one-byte
length for a domain — the `as u8` cast appears as `% 256`), then the port
bytes. -/
def Addr.to_vec (a : Addr) : Except Error (List Nat) :=
  match a.addr_type with
  | .error e => .error e
  | .ok t =>
    match a.url.host with
    | some (Host.ipv4 _) =>
      match a.host_vec with
      | .error e => .error e
      | .ok hv => .ok (t :: (hv ++ a.port))
    | some (Host.ipv6 _) =>
      match a.host_vec with
      | .error e => .error e
      | .ok hv => .ok (t :: (hv ++ a.port))
    | some (Host.domain _) =>
      match a.host_vec with
      | .error e => .error e
      | .ok hv => .ok (t :: (hv.length % 256) :: (hv ++ a.port))
    | none => .ok (t :: a.port)

/-- Model of `Addr::path`. -/
def Addr.path (a : Addr) : Str := a.url.path

/-- Authentication methods of `src/socks.rs` (`enum AuthMethod`). -/
inductive AuthMethod where
  | NoAuth
  | Plain
deriving DecidableEq, Repr

/-- Discriminant of `AuthMethod` (`NoAuth = 0`, `Plain = 2`), the value of
`auth.method as u8`. -/
def AuthMethod.code : AuthMethod → Nat
  | .NoAuth => 0
  | .Plain => 2

/-- Model of `SocksAuth`: method plus credential bytes. -/
structure SocksAuth where
  method : AuthMethod
  username : List Nat
  password : List Nat
deriving DecidableEq, Repr

/-- Model of `SocksAuth::new_plain`: stores the credential bytes with the
`Plain` method.  The source constructor is infallible. -/
def SocksAuth.new_plain (username password : List Nat) : SocksAuth :=
  ⟨.Plain, username, password⟩

/-- Model of `SocksAuth::new`: no authentication. -/
def SocksAuth.new : SocksAuth := ⟨.NoAuth, [], []⟩

/-- State of the scripted socket: `input` holds the bytes the proxy will
send (in order), `written` the bytes the client has written so far.
`TcpStream::connect` is modelled as succeeding with this socket. -/
structure NetState where
  input : List Nat
  written : List Nat
deriving DecidableEq, Repr

/-- Model of `read_exact` into a 1-byte buffer. -/
def read1 (st : NetState) : Option (Nat × NetState) :=
  match st.input with
  | b :: rest => some (b, ⟨rest, st.written⟩)
  | [] => none

/-- Model of `read_exact` into a 2-byte buffer. -/
def read2 (st : NetState) : Option (Nat × Nat × NetState) :=
  match st.input with
  | a :: b :: rest => some (a, b, ⟨rest, st.written⟩)
  | _ => none

/-- Model of `read_exact` into a 4-byte buffer. -/
def read4 (st : NetState) : Option (Nat × Nat × Nat × Nat × NetState) :=
  match st.input with
  | a :: b :: c :: d :: rest => some (a, b, c, d, ⟨rest, st.written⟩)
  | _ => none

/-- Model of `read_exact` into a buffer of `n` bytes. -/
def readN (n : Nat) (st : NetState) : Option (List Nat × NetState) :=
  if st.input.length < n then none
  else some (st.input.take n, ⟨st.input.drop n, st.written⟩)

/-- Model of `write_all`. -/
def writeAll (bs : List Nat) (st : NetState) : NetState :=
  ⟨st.input, st.written ++ bs⟩

/-- Check of the 2-byte method-select reply (`src/socks.rs` line 177):
`match (buf[0] == 5, buf[1] == auth.method as u8)`, version checked first. -/
def methodSelectCheck (method b0 b1 : Nat) : Except Error Unit :=
  match (b0 == 5, b1 == method) with
  | (false, _) => .error .InvalidServerVersion
  | (_, false) => .error .InvalidAuthMethod
  | _ => .ok ()

/-- Check of the 2-byte auth sub-negotiation reply (`src/socks.rs` line
202): `match (buf[0] != 1, buf[1] != 0)`, version checked first. -/
def authReplyCheck (b0 b1 : Nat) : Except Error Unit :=
  match (b0 != 1, b1 != 0) with
  | (true, _) => .error .InvalidAuthVersion
  | (_, true) => .error .AuthFailure
  | _ => .ok ()

/-- Connect-reply status table (`src/socks.rs` lines 247-258). -/
def connectReplyStatusCheck (b : Nat) : Except Error Unit :=
  match b with
  | 0 => .ok ()
  | 1 => .error .GeneralFailure
  | 2 => .error .InvalidRuleset
  | 3 => .error .NetworkUnreachable
  | 4 => .error .HostUnreachable
  | 5 => .error .RefusedByHost
  | 6 => .error .TtlExpired
  | 7 => .error .InvalidCommandProtocol
  | 8 => .error .InvalidAddressType
  | _ => .error .UnknownError

/-- Username/password request packet (`src/socks.rs` lines 185-193):
`[1, len(username) as u8] ++ username ++ [len(password) as u8] ++ password`
— both `as u8` casts appear as `% 256`. -/
def subNegotiationPacket (auth : SocksAuth) : List Nat :=
  1 :: (auth.username.length % 256)
    :: (auth.username ++ (auth.password.length % 256) :: auth.password)

/-- Sub-negotiation step (`src/socks.rs` lines 182-207): write the request
packet, read the 2-byte reply and check it. -/
def subNegotiation (auth : SocksAuth) (st : NetState) : Except Error Unit × NetState :=
  let st := writeAll (subNegotiationPacket auth) st
  match read2 st with
  | none => (.error .IoError, st)
  | some (b0, b1, st) => (authReplyCheck b0 b1, st)

/-- Variable-length bind-address element of the connect reply
(`src/socks.rs` lines 271-290), branching on the address-type byte. -/
def readBindAddr (b3 : Nat) (st : NetState) : Except Error Host × NetState :=
  match b3 with
  | 1 =>
    match read4 st with
    | none => (.error .IoError, st)
    | some (a, b, c, d, st) => (.ok (.ipv4 [a, b, c, d]), st)
  | 3 =>
    match read1 st with
    | none => (.error .IoError, st)
    | some (len, st) =>
      match readN len st with
      | none => (.error .IoError, st)
      | some (buf, st) => (.ok (.domain buf), st)
  | 4 =>
    match readN 16 st with
    | none => (.error .IoError, st)
    | some (buf, st) => (.ok (.ipv6 buf), st)
  | _ => (.error .InvalidAddressType, st)

/-- Terminal success state of the handshake (`struct SocksStream`): the
transport kind, the target, and the proxy-reported bind address and port. -/
structure SocksStreamModel where
  isTls : Bool
  target : Addr
  bindAddr : Host
  bindPort : Nat × Nat
deriving DecidableEq, Repr

/-- Model of `SocksStream::handshake` (`src/socks.rs` lines 165-313) over
the scripted socket: greeting, method select, optional username/password
sub-negotiation, connect request, connect reply with bind address, then the
TLS upgrade for a secure target (the TLS connector itself is modelled as
succeeding; `target.host()?` is still consulted as in the source).  The
`proxy` argument is the endpoint string `TcpStream::connect` dials; the
dial is modelled as succeeding. -/
def handshake (proxy : Str) (target : Addr) (auth : SocksAuth) (st0 : NetState) :
    Except Error SocksStreamModel × NetState :=
  let _ := proxy
  let st := writeAll [5, 1, auth.method.code] st0
  match read2 st with
  | none => (.error .IoError, st)
  | some (b0, b1, st) =>
    match methodSelectCheck auth.method.code b0 b1 with
    | .error e => (.error e, st)
    | .ok _ =>
      let sub := if b1 = 2 then subNegotiation auth st else (.ok (), st)
      match sub with
      | (.error e, st) => (.error e, st)
      | (.ok _, st) =>
        match target.to_vec with
        | .error e => (.error e, st)
        | .ok tv =>
          let st := writeAll (5 :: 1 :: 0 :: tv) st
          match read4 st with
          | none => (.error .IoError, st)
          | some (b0, b1, b2, b3, st) =>
            if b0 ≠ 5 then (.error .InvalidServerVersion, st)
            else
              match connectReplyStatusCheck b1 with
              | .error e => (.error e, st)
              | .ok _ =>
                if b2 ≠ 0 then (.error .InvalidReservedByte, st)
                else
                  match readBindAddr b3 st with
                  | (.error e, st) => (.error e, st)
                  | (.ok bindAddr, st) =>
                    match read2 st with
                    | none => (.error .IoError, st)
                    | some (p0, p1, st) =>
                      if target.is_ssl then
                        match target.host with
                        | .error e => (.error e, st)
                        | .ok _ => (.ok ⟨true, target, bindAddr, (p0, p1)⟩, st)
                      else (.ok ⟨false, target, bindAddr, (p0, p1)⟩, st)

/-- Model of `SocksStream::connect`: parse the target, handshake without
authentication. -/
def SocksStream.connect (proxy target : Str) (st : NetState) :
    Except Error SocksStreamModel × NetState :=
  match Addr.fromStr target with
  | .error e => (.error e, st)
  | .ok t => handshake proxy t SocksAuth.new st

/-- Model of `SocksStream::connect_plain`: parse the target, handshake with
the plain credential built by `SocksAuth::new_plain`. -/
def SocksStream.connectPlain (proxy target : Str) (username password : List Nat)
    (st : NetState) : Except Error SocksStreamModel × NetState :=
  match Addr.fromStr target with
  | .error e => (.error e, st)
  | .ok t => handshake proxy t (SocksAuth.new_plain username password) st

/-- Header/body boundary bytes `\r\n\r\n`. -/
def crlfcrlf : List Nat := [13, 10, 13, 10]

/-- Model of `response.windows(4).position(|x| x == b"\r\n\r\n")`: index of
the first window equal to `pat`, scanning left to right. -/
def firstWindowPos (pat : List Nat) : List Nat → Option Nat
  | [] => if pat.isPrefixOf ([] : List Nat) then some 0 else none
  | x :: t =>
    if pat.isPrefixOf (x :: t) then some 0
    else (firstWindowPos pat t).map (· + 1)

/-- Response framing shared by `get` and `post_json` (`src/socks.rs` lines
327-332 and `src/http.rs` lines 87-92): locate the first `\r\n\r\n` and
return everything after it, or fail with `WrongHttp`. -/
def httpResponseBody (response : List Nat) : Except Error (List Nat) :=
  match firstWindowPos crlfcrlf response with
  | none => .error .WrongHttp
  | some pos => .ok (response.drop (pos + 4))

/-- Request line and headers of `get` (`src/socks.rs` lines 318-323 and
`src/http.rs` lines 77-82), before byte conversion. -/
def getRequestStr (path host : Str) : Str :=
  "GET ".toList ++ path ++ " HTTP/1.0\r\nHost: ".toList ++ host ++ "\r\n\r\n".toList

/-- Request of `post_json` (`src/socks.rs` lines 337-348 and `src/http.rs`
lines 96-107), before byte conversion: the `Content-Length` header and the
body are present exactly when the body is non-empty (`body.len()` appears
as the list length, the byte length on ASCII content). -/
def postJsonRequestStr (path host body : Str) : Str :=
  let bodySection :=
    if body.isEmpty then ([] : Str)
    else "Content-Length: ".toList ++ natDecimal body.length ++ "\r\n\r\n".toList ++ body
  "POST ".toList ++ path ++ " HTTP/1.0\r\nHost: ".toList ++ host
    ++ "\r\nContent-Type: application/json\r\n".toList ++ bodySection ++ "\r\n".toList

/-- Model of the free function `get` of `src/socks.rs` (lines 316-333):
connect, write the request, read the whole remaining response, frame it. -/
def socksGet (proxy target : Str) (st : NetState) : Except Error (List Nat) × NetState :=
  match SocksStream.connect proxy target st with
  | (.error e, st) => (.error e, st)
  | (.ok s, st) =>
    match s.target.host with
    | .error e => (.error e, st)
    | .ok hostStr =>
      let st := writeAll ((getRequestStr s.target.path hostStr).map Char.toNat) st
      let response := st.input
      let st : NetState := ⟨[], st.written⟩
      (httpResponseBody response, st)

/-- Model of the free function `post_json` of `src/socks.rs` (lines
335-358). -/
def socksPostJson (proxy target : Str) (body : Str) (st : NetState) :
    Except Error (List Nat) × NetState :=
  match SocksStream.connect proxy target st with
  | (.error e, st) => (.error e, st)
  | (.ok s, st) =>
    match s.target.host with
    | .error e => (.error e, st)
    | .ok hostStr =>
      let st := writeAll ((postJsonRequestStr s.target.path hostStr body).map Char.toNat) st
      let response := st.input
      let st : NetState := ⟨[], st.written⟩
      (httpResponseBody response, st)

/-- Model of `HttpStream` after a successful connect (`src/http.rs`): the
target, the proxy flag, and whether the transport is TLS-wrapped. -/
structure HttpStreamModel where
  target : Addr
  isProxy : Bool
  isTls : Bool
deriving DecidableEq, Repr

/-- Model of `HttpStream::connect_proxy` (`src/http.rs` lines 50-74): parse
target and proxy; the TCP dial, DNS resolution and TLS connector are
modelled as succeeding. -/
def HttpStream.connectProxy (proxy target : Str) : Except Error HttpStreamModel :=
  match Addr.fromStr target with
  | .error e => .error e
  | .ok addr =>
    match Addr.fromStr proxy with
    | .error e => .error e
    | .ok paddr => .ok ⟨addr, true, paddr.is_ssl⟩

/-- Model of `enum Client` of `src/client.rs`. -/
inductive ClientModel where
  | Http (h : HttpStreamModel)
  | Socks (s : SocksStreamModel)
deriving DecidableEq, Repr

/-- Model of `Client::connect_proxy` (`src/client.rs` lines 19-29): parse
the proxy URL, dispatch on its scheme, rejecting anything that is neither
HTTP nor a SOCKS5 variant with `UnsupportedProxy`. -/
def Client.connectProxy (proxyWithScheme target : Str) (st : NetState) :
    Except Error ClientModel × NetState :=
  match Url.parse proxyWithScheme with
  | none => (.error .UrlParse, st)
  | some u =>
    if u.scheme = "http".toList ∨ u.scheme = "https".toList then
      ((HttpStream.connectProxy proxyWithScheme target).map ClientModel.Http, st)
    else if u.scheme = "socks5".toList ∨ u.scheme = "socks5h".toList
        ∨ u.scheme = "socks5t".toList then
      let r := SocksStream.connect proxyWithScheme target st
      (r.1.map ClientModel.Socks, r.2)
    else (.error .UnsupportedProxy, st)

/-- Model of `Client::connect_socks_auth` (`src/client.rs` lines 39-48):
delegates directly to `SocksStream::connect_plain`; the source performs no
scheme inspection here. -/
def Client.connectSocksAuth (proxy target : Str) (username password : List Nat)
    (st : NetState) : Except Error ClientModel × NetState :=
  let r := SocksStream.connectPlain proxy target username password st
  (r.1.map ClientModel.Socks, r.2)

/-! Spec-side definitions, written from the spec's words, to be compared
with the definitions above that come from the source. -/

/-- Big-endian value of a two-byte list. -/
def decPort (l : List Nat) : Nat := 256 * l.headD 0 + l.tail.headD 0

/-- Decoder following the spec's address-type table (spec §6 and the
bind-address rules of §4.3 step 5): type `1` is followed by 4 raw bytes,
type `3` by one length byte and that many bytes, type `4` by 16 raw bytes,
then in every case 2 big-endian port bytes. -/
def decodeSocksAddress (bs : List Nat) : Option (Host × Nat) :=
  match bs with
  | 1 :: rest =>
    if rest.length = 6 then some (.ipv4 (rest.take 4), decPort (rest.drop 4)) else none
  | 3 :: len :: rest =>
    if rest.length = len + 2 then some (.domain (rest.take len), decPort (rest.drop len))
    else none
  | 4 :: rest =>
    if rest.length = 18 then some (.ipv6 (rest.take 16), decPort (rest.drop 16)) else none
  | _ => none

/-- Effective port of a parsed URL: the explicit-or-default port, or the
`80` fallback that `Addr::port` encodes when none is resolvable. -/
def effectivePort (u : Url) : Nat :=
  match u.portOrKnownDefault with
  | some p => p
  | none => 80

/-- Well-formedness of a host as one of the claim's three kinds: an IPv4
literal (4 octets), an IPv6 literal (16 octets), or a domain name of at
most 255 bytes. -/
def hostWellFormed : Host → Prop
  | .ipv4 o => o.length = 4
  | .ipv6 o => o.length = 16
  | .domain d => d.length ≤ 255

/-- Occurrence of the `\r\n\r\n` boundary at position `i` of a response. -/
def boundaryAt (response : List Nat) (i : Nat) : Prop :=
  crlfcrlf <+: response.drop i

instance (r : List Nat) (i : Nat) : Decidable (boundaryAt r i) := by
  unfold boundaryAt
  infer_instance

/-- Scheme-inference condition in the words of claim C7: the substring
before the first `/` ends in the port literal `443` after its last `:`,
i.e. it ends with `":443"`. -/
def claimInferSecure (s : Str) : Bool :=
  decide (":443".toList <:+ takeUntilChar '/' s)

/-- Example target for concrete handshake instances: `http://x/`, whose
SOCKS5 encoding is `[3, 1, 120, 0, 80]`. -/
def egAddr : Addr := ⟨⟨"http".toList, some (.domain (strBytes "x")), none, "/".toList⟩⟩

/-! Theorems. -/

/-- C1: the claim says `Addr::to_vec` fails for domain names longer than
255 bytes.  The code instead succeeds and truncates: parsing a 256-byte
domain (`256` copies of `a`) succeeds, and `to_vec` returns `Ok` with
length-prefix byte `0` (that is, `256 % 256`, a truncated value of the real
length) followed by all 256 domain bytes and the port. -/
theorem to_vec_truncates_long_domain :
    (Addr.fromStr (List.replicate 256 'a')).map (fun a => a.to_vec)
      = .ok (.ok (3 :: 0 :: (List.replicate 256 97 ++ [0, 80]))) := by decide

/-- C2: the claim says over-long credentials fail before any byte of the
sub-negotiation message is written.  The code instead accepts a 256-byte
username (`new_plain` is infallible), builds the sub-negotiation packet
with username-length byte `0` (`256 % 256`), writes the whole packet to the
socket after the greeting, and only fails afterwards on I/O. -/
theorem handshake_writes_truncated_subneg :
    (SocksAuth.new_plain (List.replicate 256 97) [112]).username.length = 256
    ∧ subNegotiationPacket (SocksAuth.new_plain (List.replicate 256 97) [112])
        = 1 :: 0 :: (List.replicate 256 97 ++ [1, 112])
    ∧ (handshake [] egAddr (SocksAuth.new_plain (List.replicate 256 97) [112])
        ⟨[5, 2], []⟩).2.written
        = [5, 1, 2] ++ (1 :: 0 :: (List.replicate 256 97 ++ [1, 112]))
    ∧ (handshake [] egAddr (SocksAuth.new_plain (List.replicate 256 97) [112])
        ⟨[5, 2], []⟩).1 = .error .IoError := by
  exact ⟨by decide, by decide, by decide, by decide⟩

/-- C3: the connect-reply status byte is mapped through the fixed table:
`0` continues as success, `1`-`8` map to their own pairwise-distinct error
kinds, and every other byte maps to `UnknownError`; a non-zero status
terminates the handshake with exactly that error. -/
theorem connect_reply_status_table :
    (∀ b : Nat, 9 ≤ b → connectReplyStatusCheck b = .error .UnknownError)
    ∧ connectReplyStatusCheck 0 = .ok ()
    ∧ connectReplyStatusCheck 1 = .error .GeneralFailure
    ∧ connectReplyStatusCheck 2 = .error .InvalidRuleset
    ∧ connectReplyStatusCheck 3 = .error .NetworkUnreachable
    ∧ connectReplyStatusCheck 4 = .error .HostUnreachable
    ∧ connectReplyStatusCheck 5 = .error .RefusedByHost
    ∧ connectReplyStatusCheck 6 = .error .TtlExpired
    ∧ connectReplyStatusCheck 7 = .error .InvalidCommandProtocol
    ∧ connectReplyStatusCheck 8 = .error .InvalidAddressType
    ∧ List.Nodup [Error.GeneralFailure, Error.InvalidRuleset, Error.NetworkUnreachable,
        Error.HostUnreachable, Error.RefusedByHost, Error.TtlExpired,
        Error.InvalidCommandProtocol, Error.InvalidAddressType]
    ∧ (∀ (proxy : Str) (target : Addr) (tv : List Nat) (b c d : Nat)
        (rest w : List Nat) (e : Error),
        target.to_vec = .ok tv → connectReplyStatusCheck b = .error e →
        handshake proxy target SocksAuth.new ⟨5 :: 0 :: 5 :: b :: c :: d :: rest, w⟩
          = (.error e, ⟨rest, (w ++ [5, 1, 0]) ++ (5 :: 1 :: 0 :: tv)⟩)) := by
  refine ⟨fun b hb => ?_, rfl, rfl, rfl, rfl, rfl, rfl, rfl, rfl, rfl, by decide,
    fun proxy target tv b c d rest w e htv hb => ?_⟩
  · match b, hb with
    | n + 9, _ => rfl
  · simp [handshake, writeAll, read2, read4, methodSelectCheck, SocksAuth.new,
      AuthMethod.code, htv, hb]

/-- Witness for C3: status `9` (undefined) maps to the unknown-status kind,
and a handshake whose connect reply carries status `1` terminates with
`GeneralFailure` right after the connect request. -/
theorem connect_reply_status_table_witness :
    connectReplyStatusCheck 9 = .error .UnknownError
    ∧ handshake [] egAddr SocksAuth.new ⟨[5, 0, 5, 1, 0, 1], []⟩
        = (.error .GeneralFailure, ⟨[], ([] ++ [5, 1, 0]) ++ (5 :: 1 :: 0 :: [3, 1, 120, 0, 80])⟩) :=
  ⟨connect_reply_status_table.1 9 (by decide),
    connect_reply_status_table.2.2.2.2.2.2.2.2.2.2.2 [] egAddr [3, 1, 120, 0, 80]
      1 0 1 [] [] Error.GeneralFailure rfl rfl⟩

/-- C5: in the username/password sub-negotiation reply, a first byte other
than `0x01` fails with the invalid-auth-version kind, a first byte `0x01`
with a non-zero second byte fails with the auth-failure kind (the variant
`src/socks.rs` spells `NotClosedConnection`, displayed "connection must be
closed"), and the step succeeds exactly on the reply `(1, 0)`; the
handshake's sub-negotiation step returns exactly this check's verdict. -/
theorem auth_reply_check :
    (∀ b0 b1 : Nat, b0 ≠ 1 → authReplyCheck b0 b1 = .error .InvalidAuthVersion)
    ∧ (∀ b0 b1 : Nat, b0 = 1 → b1 ≠ 0 → authReplyCheck b0 b1 = .error .AuthFailure)
    ∧ (∀ b0 b1 : Nat, authReplyCheck b0 b1 = .ok () ↔ b0 = 1 ∧ b1 = 0)
    ∧ (∀ (auth : SocksAuth) (b0 b1 : Nat) (rest w : List Nat),
        subNegotiation auth ⟨b0 :: b1 :: rest, w⟩
          = (authReplyCheck b0 b1, ⟨rest, w ++ subNegotiationPacket auth⟩)) := by
  refine ⟨fun b0 b1 h => ?_, fun b0 b1 h0 h1 => ?_, fun b0 b1 => ?_,
    fun auth b0 b1 rest w => ?_⟩
  · simp [authReplyCheck, bne, beq_eq_false_iff_ne.mpr h]
  · subst h0
    simp [authReplyCheck, bne, beq_eq_false_iff_ne.mpr h1]
  · constructor
    · intro h
      by_cases h0 : b0 = 1
      · by_cases h1 : b1 = 0
        · exact ⟨h0, h1⟩
        · rw [h0] at h
          simp [authReplyCheck, bne, beq_eq_false_iff_ne.mpr h1] at h
      · simp [authReplyCheck, bne, beq_eq_false_iff_ne.mpr h0] at h
    · rintro ⟨h0, h1⟩
      subst h0; subst h1
      rfl
  · rfl

/-- Witness for C5: concrete replies `(0, 0)`, `(1, 1)` and `(1, 0)`. -/
theorem auth_reply_check_witness :
    authReplyCheck 0 0 = .error .InvalidAuthVersion
    ∧ authReplyCheck 1 1 = .error .AuthFailure
    ∧ authReplyCheck 1 0 = .ok () :=
  ⟨auth_reply_check.1 0 0 (by decide),
    auth_reply_check.2.1 1 1 rfl (by decide),
    (auth_reply_check.2.2.1 1 0).mpr ⟨rfl, rfl⟩⟩

/-- Characterization of a failed window search: no window matches. -/
theorem firstWindowPos_eq_none {pat l : List Nat} (h : firstWindowPos pat l = none) :
    ∀ i, ¬ pat <+: l.drop i := by
  induction l with
  | nil =>
    intro i hp
    by_cases hp0 : pat.isPrefixOf ([] : List Nat)
    · simp [firstWindowPos, hp0] at h
    · rw [List.isPrefixOf_iff_prefix] at hp0
      rw [List.drop_nil] at hp
      exact hp0 hp
  | cons x t ih =>
    by_cases hp0 : pat.isPrefixOf (x :: t)
    · simp [firstWindowPos, hp0] at h
    · intro i
      simp [firstWindowPos, hp0] at h
      match i with
      | 0 =>
        rw [List.isPrefixOf_iff_prefix] at hp0
        simpa using hp0
      | j + 1 => simpa using ih h j

/-- Characterization of a found window: the pattern starts there. -/
theorem firstWindowPos_eq_some_pre {pat l : List Nat} {k : Nat}
    (h : firstWindowPos pat l = some k) : pat <+: l.drop k := by
  induction l generalizing k with
  | nil =>
    by_cases hp0 : pat.isPrefixOf ([] : List Nat)
    · simp [firstWindowPos, hp0] at h
      subst h
      simpa using List.isPrefixOf_iff_prefix.mp hp0
    · simp [firstWindowPos, hp0] at h
  | cons x t ih =>
    by_cases hp0 : pat.isPrefixOf (x :: t)
    · simp [firstWindowPos, hp0] at h
      subst h
      simpa using List.isPrefixOf_iff_prefix.mp hp0
    · simp [firstWindowPos, hp0] at h
      obtain ⟨j, hj, rfl⟩ := h
      simpa using ih hj

/-- Minimality of a found window: no earlier window matches. -/
theorem firstWindowPos_eq_some_min {pat l : List Nat} {k : Nat}
    (h : firstWindowPos pat l = some k) : ∀ j, j < k → ¬ pat <+: l.drop j := by
  induction l generalizing k with
  | nil =>
    by_cases hp0 : pat.isPrefixOf ([] : List Nat)
    · simp [firstWindowPos, hp0] at h
      omega
    · simp [firstWindowPos, hp0] at h
  | cons x t ih =>
    by_cases hp0 : pat.isPrefixOf (x :: t)
    · simp [firstWindowPos, hp0] at h
      omega
    · simp [firstWindowPos, hp0] at h
      obtain ⟨k, hk, rfl⟩ := h
      intro j hj
      match j with
      | 0 =>
        rw [List.isPrefixOf_iff_prefix] at hp0
        simpa using hp0
      | j + 1 =>
        simpa using ih hk j (by omega)

/-- C9: the response framing of `get`/`request` returns exactly the suffix
after the first occurrence of the `\r\n\r\n` boundary (the empty list when
the response ends with the boundary, since everything after it is
returned), and fails with the framing error `WrongHttp` when the response
has no boundary — a truncated body is never returned. -/
theorem response_body_after_first_boundary (response : List Nat) :
    ((∀ i, ¬ boundaryAt response i) → httpResponseBody response = .error .WrongHttp)
    ∧ (∀ i, boundaryAt response i → (∀ j, j < i → ¬ boundaryAt response j) →
        httpResponseBody response = .ok (response.drop (i + 4))) := by
  constructor
  · intro h
    cases hf : firstWindowPos crlfcrlf response with
    | none => simp [httpResponseBody, hf]
    | some k => exact absurd (firstWindowPos_eq_some_pre hf) (h k)
  · intro i hb hmin
    cases hf : firstWindowPos crlfcrlf response with
    | none => exact absurd hb (firstWindowPos_eq_none hf i)
    | some k =>
      have hk : k = i := by
        rcases Nat.lt_trichotomy k i with hlt | heq | hgt
        · exact absurd (firstWindowPos_eq_some_pre hf) (hmin k hlt)
        · exact heq
        · exact absurd hb (firstWindowPos_eq_some_min hf i hgt)
      subst hk
      simp [httpResponseBody, hf]

/-- Witness for C9: a response whose boundary sits at position 1 yields the
two bytes after it; a boundary-free response yields `WrongHttp`; a response
ending with the boundary yields the empty body. -/
theorem response_body_after_first_boundary_witness :
    httpResponseBody [72, 13, 10, 13, 10, 66, 67] = .ok [66, 67]
    ∧ httpResponseBody [72, 73] = .error .WrongHttp
    ∧ httpResponseBody [72, 13, 10, 13, 10] = .ok [] := by
  refine ⟨?_, ?_, ?_⟩
  · simpa using (response_body_after_first_boundary [72, 13, 10, 13, 10, 66, 67]).2 1
      (by decide) (by decide)
  · refine (response_body_after_first_boundary [72, 73]).1 (fun i => ?_)
    match i with
    | 0 => decide
    | 1 => decide
    | n + 2 =>
      have hd : ([72, 73] : List Nat).drop (n + 2) = [] :=
        List.drop_eq_nil_of_le (by simp)
      simp [boundaryAt, hd, crlfcrlf]
  · simpa using (response_body_after_first_boundary [72, 13, 10, 13, 10]).2 1
      (by decide) (by decide)

/-- Decoding the big-endian port bytes produced by `Addr::port` recovers
the port value. -/
theorem portBytes_decode (p : Nat) (h : p < 65536) :
    decPort [(p >>> 8) &&& 0xff, p &&& 0xff] = p := by
  have h255 : (0xff : Nat) = 2 ^ 8 - 1 := by norm_num
  have h1 : (p >>> 8) &&& 0xff = p / 256 := by
    rw [Nat.shiftRight_eq_div_pow, h255, Nat.and_pow_two_sub_one_eq_mod]
    have hlt : p / 2 ^ 8 < 2 ^ 8 := Nat.div_lt_of_lt_mul (by omega)
    simpa using Nat.mod_eq_of_lt hlt
  have h2 : p &&& 0xff = p % 256 := by
    rw [h255, Nat.and_pow_two_sub_one_eq_mod]
  simp only [decPort, h1, h2, List.headD_cons, List.tail_cons]
  omega

/-- C8: for every target address whose host is an IPv4 literal, an IPv6
literal, or a domain of at most 255 bytes, decoding the bytes of
`Addr::to_vec` by the spec's address-type rules recovers exactly the
original host and the effective port. -/
theorem encode_decode_roundtrip (u : Url) (h : Host) (hh : u.host = some h)
    (hw : hostWellFormed h) (hp : effectivePort u < 65536) :
    ∃ v, (Addr.mk u).to_vec = .ok v
      ∧ decodeSocksAddress v = some (h, effectivePort u) := by
  have hport : (Addr.mk u).port
      = [(effectivePort u >>> 8) &&& 0xff, effectivePort u &&& 0xff] := by
    unfold Addr.port effectivePort
    cases hu : u.portOrKnownDefault with
    | some p => simp
    | none => simp only [List.cons.injEq, and_true]; decide
  have hdec : decPort ((Addr.mk u).port) = effectivePort u := by
    rw [hport]
    exact portBytes_decode _ hp
  have hplen : ((Addr.mk u).port).length = 2 := by rw [hport]; rfl
  cases h with
  | ipv4 o =>
    have hlen : o.length = 4 := hw
    refine ⟨1 :: (o ++ (Addr.mk u).port), ?_, ?_⟩
    · simp [Addr.to_vec, Addr.addr_type, Addr.host_vec, hh]
    · simp [decodeSocksAddress, List.length_append, hlen, hplen,
        List.take_left' hlen, List.drop_left' hlen, hdec]
  | ipv6 o =>
    have hlen : o.length = 16 := hw
    refine ⟨4 :: (o ++ (Addr.mk u).port), ?_, ?_⟩
    · simp [Addr.to_vec, Addr.addr_type, Addr.host_vec, hh]
    · simp [decodeSocksAddress, List.length_append, hlen, hplen,
        List.take_left' hlen, List.drop_left' hlen, hdec]
  | domain d =>
    have hlen : d.length < 256 := Nat.lt_of_le_of_lt hw (by norm_num)
    refine ⟨3 :: (d.length % 256) :: (d ++ (Addr.mk u).port), ?_, ?_⟩
    · simp [Addr.to_vec, Addr.addr_type, Addr.host_vec, hh]
    · rw [Nat.mod_eq_of_lt hlen]
      simp [decodeSocksAddress, List.length_append, hplen,
        List.take_left' rfl, List.drop_left' rfl, hdec]

/-- Witness for C8: the domain target `example.org` with the default http
port round-trips to itself and port `80`. -/
theorem encode_decode_roundtrip_witness :
    (strBytes "example.org").length ≤ 255
    ∧ ∃ v, (Addr.mk ⟨"http".toList, some (.domain (strBytes "example.org")), none,
          "/".toList⟩).to_vec = .ok v
        ∧ decodeSocksAddress v = some (.domain (strBytes "example.org"), 80) := by
  refine ⟨by decide, ?_⟩
  exact encode_decode_roundtrip
    ⟨"http".toList, some (.domain (strBytes "example.org")), none, "/".toList⟩
    (.domain (strBytes "example.org")) rfl
    (by show (strBytes "example.org").length ≤ 255; decide)
    (by decide)

/-- Method-select checking never reports an unsupported proxy. -/
theorem methodSelectCheck_ne_unsup (m b0 b1 : Nat) :
    methodSelectCheck m b0 b1 ≠ .error .UnsupportedProxy := by
  unfold methodSelectCheck
  split <;> simp_all

/-- Auth-reply checking never reports an unsupported proxy. -/
theorem authReplyCheck_ne_unsup (b0 b1 : Nat) :
    authReplyCheck b0 b1 ≠ .error .UnsupportedProxy := by
  unfold authReplyCheck
  split <;> simp_all

/-- Connect-reply status checking never reports an unsupported proxy. -/
theorem connectReplyStatusCheck_ne_unsup (b : Nat) :
    connectReplyStatusCheck b ≠ .error .UnsupportedProxy := by
  unfold connectReplyStatusCheck
  split <;> simp_all

/-- Address encoding never reports an unsupported proxy. -/
theorem to_vec_ne_unsup (a : Addr) : a.to_vec ≠ .error .UnsupportedProxy := by
  intro h
  cases hh : a.url.host with
  | none => simp [Addr.to_vec, Addr.addr_type, hh] at h
  | some ho =>
    cases ho with
    | ipv4 o => simp [Addr.to_vec, Addr.addr_type, Addr.host_vec, hh] at h
    | ipv6 o => simp [Addr.to_vec, Addr.addr_type, Addr.host_vec, hh] at h
    | domain d => simp [Addr.to_vec, Addr.addr_type, Addr.host_vec, hh] at h

/-- Host display never reports an unsupported proxy. -/
theorem host_ne_unsup (a : Addr) : a.host ≠ .error .UnsupportedProxy := by
  intro h
  cases hh : a.url.host with
  | none => simp [Addr.host, hh] at h
  | some ho => cases ho <;> simp [Addr.host, hh] at h

/-- Sub-negotiation never reports an unsupported proxy. -/
theorem subNegotiation_ne_unsup (auth : SocksAuth) (st : NetState) :
    (subNegotiation auth st).1 ≠ .error .UnsupportedProxy := by
  cases h2 : read2 (writeAll (subNegotiationPacket auth) st) with
  | none => simp [subNegotiation, h2]
  | some v =>
    obtain ⟨b0, b1, st1⟩ := v
    simp [subNegotiation, h2]
    exact authReplyCheck_ne_unsup b0 b1

/-- Bind-address reading never reports an unsupported proxy. -/
theorem readBindAddr_ne_unsup (b3 : Nat) (st : NetState) :
    (readBindAddr b3 st).1 ≠ .error .UnsupportedProxy := by
  unfold readBindAddr
  split
  · cases hr : read4 st with
    | none => simp [hr]
    | some v =>
      obtain ⟨a, b, c, d, st1⟩ := v
      simp [hr]
  · cases hr : read1 st with
    | none => simp [hr]
    | some v =>
      obtain ⟨len, st1⟩ := v
      cases hn : readN len st1 with
      | none => simp [hr, hn]
      | some w =>
        obtain ⟨buf, st2⟩ := w
        simp [hr, hn]
  · cases hn : readN 16 st with
    | none => simp [hn]
    | some w =>
      obtain ⟨buf, st1⟩ := w
      simp [hn]
  · simp

/-- The result shape of `Addr::from_str` rules out the unsupported-proxy
kind. -/
theorem parse_match_ne_unsup (o : Option Url) :
    (match o with
      | none => (.error .UrlParse : Except Error Addr)
      | some u => .ok ⟨u⟩) ≠ .error .UnsupportedProxy := by
  cases o <;> simp

/-- Target parsing never reports an unsupported proxy. -/
theorem fromStr_ne_unsup (s : Str) : Addr.fromStr s ≠ .error .UnsupportedProxy := by
  exact parse_match_ne_unsup _

/-- The handshake itself never reports an unsupported proxy: its error
vocabulary is the protocol, address and I/O kinds only. -/
theorem handshake_ne_unsup (proxy : Str) (t : Addr) (a : SocksAuth) (st : NetState) :
    (handshake proxy t a st).1 ≠ .error .UnsupportedProxy := by
  cases h2 : read2 (writeAll [5, 1, a.method.code] st) with
  | none => simp [handshake, h2]
  | some v =>
    obtain ⟨b0, b1, st1⟩ := v
    cases hm : methodSelectCheck a.method.code b0 b1 with
    | error e =>
      simp [handshake, h2, hm]
      intro h
      exact methodSelectCheck_ne_unsup a.method.code b0 b1 (h ▸ hm)
    | ok u =>
      cases u
      cases hs : (if b1 = 2 then subNegotiation a st1 else (.ok (), st1)) with
      | mk r st2 =>
        cases r with
        | error e =>
          simp [handshake, h2, hm, hs]
          intro h
          by_cases hb : b1 = 2
          · rw [if_pos hb] at hs
            exact subNegotiation_ne_unsup a st1 (by rw [hs]; simpa using h)
          · rw [if_neg hb] at hs
            simp at hs
        | ok u2 =>
          cases u2
          cases htv : t.to_vec with
          | error e =>
            simp [handshake, h2, hm, hs, htv]
            intro h
            exact to_vec_ne_unsup t (h ▸ htv)
          | ok tv =>
            cases h4 : read4 (writeAll (5 :: 1 :: 0 :: tv) st2) with
            | none => simp [handshake, h2, hm, hs, htv, h4]
            | some v4 =>
              obtain ⟨c0, c1, c2, c3, st3⟩ := v4
              by_cases hc0 : c0 ≠ 5
              · simp [handshake, h2, hm, hs, htv, h4, if_pos hc0]
              · cases hcs : connectReplyStatusCheck c1 with
                | error e =>
                  simp [handshake, h2, hm, hs, htv, h4, if_neg hc0, hcs]
                  intro h
                  exact connectReplyStatusCheck_ne_unsup c1 (h ▸ hcs)
                | ok u3 =>
                  cases u3
                  by_cases hc2 : c2 ≠ 0
                  · simp [handshake, h2, hm, hs, htv, h4, if_neg hc0, hcs, if_pos hc2]
                  · cases hba : readBindAddr c3 st3 with
                    | mk rb st4 =>
                      cases rb with
                      | error e =>
                        simp [handshake, h2, hm, hs, htv, h4, if_neg hc0, hcs,
                          if_neg hc2, hba]
                        intro h
                        exact readBindAddr_ne_unsup c3 st3 (by rw [hba]; simpa using h)
                      | ok bindAddr =>
                        cases hp2 : read2 st4 with
                        | none =>
                          simp [handshake, h2, hm, hs, htv, h4, if_neg hc0, hcs,
                            if_neg hc2, hba, hp2]
                        | some vp =>
                          obtain ⟨p0, p1, st5⟩ := vp
                          by_cases hssl : t.is_ssl = true
                          · cases hho : t.host with
                            | error e =>
                              simp [handshake, h2, hm, hs, htv, h4, if_neg hc0, hcs,
                                if_neg hc2, hba, hp2, hssl, hho]
                              intro h
                              exact host_ne_unsup t (h ▸ hho)
                            | ok hstr =>
                              simp [handshake, h2, hm, hs, htv, h4, if_neg hc0, hcs,
                                if_neg hc2, hba, hp2, hssl, hho]
                          · simp [handshake, h2, hm, hs, htv, h4, if_neg hc0, hcs,
                              if_neg hc2, hba, hp2, hssl]

/-- C4 (amended): `Client::connect_socks_auth` always performs the SOCKS5
handshake with the plain credential built by `SocksAuth::new_plain`, and it
performs no proxy-scheme inspection at all: it never fails with
`UnsupportedProxy` (the scheme dispatch lives only in
`Client::connect_proxy`, which never passes credentials). -/
theorem connect_socks_auth_plain_no_scheme_check :
    (∀ (proxy target : Str) (username password : List Nat) (st : NetState),
      Client.connectSocksAuth proxy target username password st
        = ((SocksStream.connectPlain proxy target username password st).1.map
            ClientModel.Socks,
           (SocksStream.connectPlain proxy target username password st).2))
    ∧ (∀ (proxy target : Str) (username password : List Nat) (st : NetState),
      SocksStream.connectPlain proxy target username password st
        = match Addr.fromStr target with
          | .error e => (.error e, st)
          | .ok t => handshake proxy t (SocksAuth.new_plain username password) st)
    ∧ (∀ (proxy target : Str) (username password : List Nat) (st : NetState),
      (Client.connectSocksAuth proxy target username password st).1
        ≠ .error .UnsupportedProxy) := by
  refine ⟨fun _ _ _ _ _ => rfl, fun _ _ _ _ _ => rfl,
    fun proxy target username password st => ?_⟩
  have hplain : ∀ st' : NetState,
      (SocksStream.connectPlain proxy target username password st').1
        ≠ .error .UnsupportedProxy := by
    intro st'
    cases hf : Addr.fromStr target with
    | error e =>
      simp [SocksStream.connectPlain, hf]
      intro h
      exact fromStr_ne_unsup target (h ▸ hf)
    | ok t =>
      simp [SocksStream.connectPlain, hf]
      exact handshake_ne_unsup proxy t (SocksAuth.new_plain username password) st'
  intro h
  refine hplain st ?_
  have h' : (SocksStream.connectPlain proxy target username password st).1.map
      ClientModel.Socks = .error .UnsupportedProxy := h
  cases hr : (SocksStream.connectPlain proxy target username password st).1 with
  | error e =>
    rw [hr] at h'
    simp [Except.map] at h'
    rw [h']
  | ok s =>
    rw [hr] at h'
    simp [Except.map] at h'

/-- C4 counterexample: the claim says `connect_socks_auth` fails with
`UnsupportedProxy` whenever the proxy scheme is not a SOCKS5 variant.  With
the proxy URL `http://127.0.0.1:5858` (scheme `http`, none of `socks5`,
`socks5h`, `socks5t`) and a cooperative proxy script, the call does not
fail at all: it completes the plain-credential handshake. -/
theorem connect_socks_auth_counterexample :
    (Url.parse "http://127.0.0.1:5858".toList).map Url.scheme = some "http".toList
    ∧ "http".toList ≠ "socks5".toList
    ∧ "http".toList ≠ "socks5h".toList
    ∧ "http".toList ≠ "socks5t".toList
    ∧ (Client.connectSocksAuth "http://127.0.0.1:5858".toList "example.org".toList
        (strBytes "user") (strBytes "pass")
        ⟨[5, 2] ++ [1, 0] ++ [5, 0, 0, 1] ++ [1, 2, 3, 4] ++ [0, 80], []⟩).1
      = .ok (ClientModel.Socks
          ⟨false, ⟨⟨"http".toList, some (.domain (strBytes "example.org")), none,
            "/".toList⟩⟩, .ipv4 [1, 2, 3, 4], (0, 80)⟩) := by
  exact ⟨by decide, by decide, by decide, by decide, by decide⟩

/-- Scheme preservation of authority/path parsing: the parsed URL carries
the scheme it was given. -/
theorem parseAfterScheme_scheme {sch rest : Str} {u : Url}
    (h : parseAfterScheme sch rest = some u) : u.scheme = sch := by
  simp only [parseAfterScheme] at h
  cases hpa : parseAuthority (specialScheme sch) (takeUntilChar '/' rest) with
  | none => rw [hpa] at h; simp at h
  | some hp =>
    obtain ⟨ho, po⟩ := hp
    rw [hpa] at h
    simp at h
    rw [← h]

/-- C7 (amended): for inputs without a scheme separator, the parsed address
is secure exactly under the code's condition — the input contains a `:`
anywhere and the part before the first `/` equals `443` after its last `:`
(taken as the whole part when it has no `:`) — rather than under the
claim's ends-with-`:443` condition; consequently `example.org:443` parses
secure and an explicit `http` scheme parses insecure. -/
theorem scheme_inference (s : Str) (a : Addr) :
    (¬ ("://".toList <:+: s) → Addr.fromStr s = .ok a → a.is_ssl = inferIsSecure s)
    ∧ ((Addr.fromStr "example.org:443".toList).map Addr.is_ssl = .ok true)
    ∧ (∀ (t : Str) (b : Addr), Addr.fromStr ("http://".toList ++ t) = .ok b →
        b.is_ssl = false) := by
  refine ⟨fun hinf hok => ?_, by decide, fun t b hok => ?_⟩
  · have hsh : strHas "://".toList s = false := by
      simp only [strHas]
      exact decide_eq_false hinf
    simp only [Addr.fromStr, hsh, Bool.false_eq_true, if_false] at hok
    by_cases hsec : inferIsSecure s = true
    · rw [hsec] at hok ⊢
      simp only [if_true] at hok
      simp [Url.parse, splitOnFirst, List.isPrefixOf, schemeOk] at hok
      cases hpa : parseAfterScheme ['h', 't', 't', 'p', 's'] s with
      | none => rw [hpa] at hok; simp at hok
      | some u =>
        rw [hpa] at hok
        simp at hok
        rw [← hok]
        simp [Addr.is_ssl, parseAfterScheme_scheme hpa]
    · rw [Bool.not_eq_true] at hsec
      rw [hsec] at hok ⊢
      simp only [Bool.false_eq_true, if_false] at hok
      simp [Url.parse, splitOnFirst, List.isPrefixOf, schemeOk] at hok
      cases hpa : parseAfterScheme ['h', 't', 't', 'p'] s with
      | none => rw [hpa] at hok; simp at hok
      | some u =>
        rw [hpa] at hok
        simp at hok
        rw [← hok]
        simp [Addr.is_ssl, parseAfterScheme_scheme hpa]
  · have hsh : strHas "://".toList ("http://".toList ++ t) = true := by
      simp only [strHas, decide_eq_true_eq]
      exact ⟨"http".toList, t, by simp⟩
    simp only [Addr.fromStr, hsh, if_true] at hok
    simp [Url.parse, splitOnFirst, List.isPrefixOf, schemeOk] at hok
    cases hpa : parseAfterScheme ['h', 't', 't', 'p'] t with
    | none => rw [hpa] at hok; simp at hok
    | some u =>
      rw [hpa] at hok
      simp at hok
      rw [← hok]
      simp [Addr.is_ssl, parseAfterScheme_scheme hpa]

/-- Witness for C7: `example.org:80` (no separator) parses with the code's
inferred insecure scheme, and an explicit `http://example.org` parses
insecure. -/
theorem scheme_inference_witness :
    Addr.is_ssl ⟨⟨"http".toList, some (.domain (strBytes "example.org")), some 80,
        "/".toList⟩⟩ = inferIsSecure "example.org:80".toList
    ∧ Addr.is_ssl ⟨⟨"http".toList, some (.domain (strBytes "example.org")), none,
        "/".toList⟩⟩ = false :=
  ⟨(scheme_inference "example.org:80".toList
      ⟨⟨"http".toList, some (.domain (strBytes "example.org")), some 80, "/".toList⟩⟩).1
      (by decide) (by decide),
    (scheme_inference [] ⟨⟨[], none, none, []⟩⟩).2.2 "example.org".toList
      ⟨⟨"http".toList, some (.domain (strBytes "example.org")), none, "/".toList⟩⟩
      (by decide)⟩

/-- C7 counterexample: the input `443/a:b` has no scheme separator and
fails the claim's condition (the part before the first `/` is `443`, which
does not end in `:443`), yet the code infers the secure scheme — the `:`
sits after the `/` — and parsing yields `is_ssl = true`. -/
theorem scheme_inference_counterexample :
    ¬ ("://".toList <:+: "443/a:b".toList)
    ∧ claimInferSecure "443/a:b".toList = false
    ∧ inferIsSecure "443/a:b".toList = true
    ∧ (Addr.fromStr "443/a:b".toList).map Addr.is_ssl = .ok true := by
  exact ⟨by decide, by decide, by decide, by decide⟩

/-- Decomposition of a list-prefix over an append: the pattern stops inside
the left part, or covers it entirely. -/
theorem prefix_append_cases {α : Type} {p a b : List α} (h : p <+: a ++ b) :
    p <+: a ∨ ∃ p₂, p = a ++ p₂ ∧ p₂ <+: b := by
  induction a generalizing p with
  | nil => exact Or.inr ⟨p, rfl, by simpa using h⟩
  | cons x a ih =>
    cases p with
    | nil => exact Or.inl List.nil_prefix
    | cons y p =>
      rw [List.cons_append, List.cons_prefix_cons] at h
      obtain ⟨rfl, h⟩ := h
      rcases ih h with h1 | ⟨p₂, rfl, h2⟩
      · exact Or.inl (List.cons_prefix_cons.mpr ⟨rfl, h1⟩)
      · exact Or.inr ⟨p₂, by simp, h2⟩

/-- Decomposition of an occurrence over an append: the pattern lies in the
left part, in the right part, or straddles the junction with a non-empty
piece on each side. -/
theorem infix_append_cases {α : Type} {p a b : List α} (h : p <:+: a ++ b) :
    p <:+: a ∨ p <:+: b
      ∨ ∃ p₁ p₂, p₁ ++ p₂ = p ∧ p₁ ≠ [] ∧ p₂ ≠ [] ∧ p₁ <:+ a ∧ p₂ <+: b := by
  induction a generalizing p with
  | nil => exact Or.inr (Or.inl (by simpa using h))
  | cons x a ih =>
    rw [List.cons_append, List.infix_cons_iff] at h
    rcases h with h | h
    · rcases prefix_append_cases (p := p) (a := x :: a) (b := b) (by simpa using h)
        with h1 | ⟨p₂, rfl, h2⟩
      · exact Or.inl h1.isInfix
      · by_cases hp2 : p₂ = []
        · subst hp2
          exact Or.inl (by rw [List.append_nil])
        · exact Or.inr (Or.inr ⟨x :: a, p₂, rfl, by simp, hp2, List.suffix_refl _, h2⟩)
    · rcases ih h with h1 | h2 | ⟨p₁, p₂, rfl, hn1, hn2, hs, hpre⟩
      · exact Or.inl (List.infix_cons h1)
      · exact Or.inr (Or.inl h2)
      · exact Or.inr (Or.inr ⟨p₁, p₂, rfl, hn1, hn2, hs.trans (List.suffix_cons x a), hpre⟩)

/-- Left piece of a straddling occurrence: the last element of the left
part belongs to the pattern. -/
theorem last_of_straddle {α : Type} {p₁ p₂ p a : List α}
    (hsplit : p₁ ++ p₂ = p) (hne : p₁ ≠ []) (hsuf : p₁ <:+ a) :
    ∃ x, a.getLast? = some x ∧ x ∈ p := by
  obtain ⟨t, rfl⟩ := hsuf
  refine ⟨p₁.getLast hne, ?_, ?_⟩
  · rw [List.getLast?_append, List.getLast?_eq_getLast _ hne]
    rfl
  · exact (List.IsPrefix.subset ⟨p₂, hsplit⟩) (List.getLast_mem hne)

/-- Right piece of a straddling occurrence: the first element of the right
part belongs to the pattern. -/
theorem head_of_straddle {α : Type} {p₁ p₂ p b : List α}
    (hsplit : p₁ ++ p₂ = p) (hne : p₂ ≠ []) (hpre : p₂ <+: b) :
    ∃ x, b.head? = some x ∧ x ∈ p := by
  obtain ⟨t, rfl⟩ := hpre
  refine ⟨p₂.head hne, ?_, ?_⟩
  · rw [List.head?_append, List.head?_eq_head hne]
    rfl
  · exact (List.IsSuffix.subset ⟨p₁, hsplit⟩) (List.head_mem hne)

/-- With an empty body, the `Content-Length` header occurs nowhere in the
request, provided it occurs in neither the path nor the host: the fixed
pieces do not contain it, and every junction is guarded by a space or a
carriage return, characters foreign to the header name. -/
theorem contentLength_not_in_empty_body_request (path host : Str)
    (hp : ¬ ("Content-Length".toList <:+: path))
    (hh : ¬ ("Content-Length".toList <:+: host)) :
    ¬ ("Content-Length".toList <:+: postJsonRequestStr path host []) := by
  intro h
  have hreq : postJsonRequestStr path host []
      = "POST ".toList ++ (path ++ (" HTTP/1.0\r\nHost: ".toList
          ++ (host ++ "\r\nContent-Type: application/json\r\n\r\n".toList))) := by
    simp [postJsonRequestStr]
  rw [hreq] at h
  rcases infix_append_cases h with h1 | h1 | ⟨p₁, p₂, hsplit, hn1, hn2, hsuf, hpre⟩
  · simpa using h1.length_le
  · rcases infix_append_cases h1 with h2 | h2 | ⟨p₁, p₂, hsplit, hn1, hn2, hsuf, hpre⟩
    · exact hp h2
    · rcases infix_append_cases h2 with h3 | h3 | ⟨p₁, p₂, hsplit, hn1, hn2, hsuf, hpre⟩
      · revert h3
        decide
      · rcases infix_append_cases h3 with h4 | h4 | ⟨p₁, p₂, hsplit, hn1, hn2, hsuf, hpre⟩
        · exact hh h4
        · revert h4
          decide
        · obtain ⟨x, hx, hmem⟩ := head_of_straddle hsplit hn2 hpre
          simp at hx
          subst hx
          revert hmem
          decide
      · obtain ⟨x, hx, hmem⟩ := last_of_straddle hsplit hn1 hsuf
        simp at hx
        subst hx
        revert hmem
        decide
    · obtain ⟨x, hx, hmem⟩ := head_of_straddle hsplit hn2 hpre
      simp at hx
      subst hx
      revert hmem
      decide
  · obtain ⟨x, hx, hmem⟩ := last_of_straddle hsplit hn1 hsuf
    simp at hx
    subst hx
    revert hmem
    decide

/-- C10: the `post_json` request always carries the
`Content-Type: application/json` header; with an empty body it is exactly
the header block (no `Content-Length` header, no body), and with a
non-empty body it carries the `Content-Length` header valued at the body's
length followed by the body — the `Content-Length` header appears exactly
when the body is non-empty. -/
theorem post_json_headers (path host body : Str)
    (hp : ¬ ("Content-Length".toList <:+: path))
    (hh : ¬ ("Content-Length".toList <:+: host)) :
    ("Content-Type: application/json".toList <:+: postJsonRequestStr path host body)
    ∧ (body = [] → postJsonRequestStr path host body
        = "POST ".toList ++ (path ++ (" HTTP/1.0\r\nHost: ".toList
            ++ (host ++ "\r\nContent-Type: application/json\r\n\r\n".toList))))
    ∧ (body ≠ [] → ("Content-Length: ".toList ++ (natDecimal body.length
          ++ ("\r\n\r\n".toList ++ body))) <:+: postJsonRequestStr path host body)
    ∧ (("Content-Length".toList <:+: postJsonRequestStr path host body) ↔ body ≠ []) := by
  by_cases hb : body = []
  · subst hb
    refine ⟨?_, fun _ => by simp [postJsonRequestStr], fun hne => absurd rfl hne, ?_⟩
    · refine ⟨"POST ".toList ++ (path ++ (" HTTP/1.0\r\nHost: ".toList
        ++ (host ++ "\r\n".toList))), "\r\n\r\n".toList, ?_⟩
      simp [postJsonRequestStr]
    · constructor
      · intro h
        exact absurd h (contentLength_not_in_empty_body_request path host hp hh)
      · intro hne
        exact absurd rfl hne
  · have hreq : postJsonRequestStr path host body
        = "POST ".toList ++ (path ++ (" HTTP/1.0\r\nHost: ".toList
            ++ (host ++ ("\r\nContent-Type: application/json\r\n".toList
              ++ (("Content-Length: ".toList ++ (natDecimal body.length
                ++ ("\r\n\r\n".toList ++ body))) ++ "\r\n".toList))))) := by
      simp [postJsonRequestStr, hb]
    have hCL : (("Content-Length: ".toList ++ (natDecimal body.length
        ++ ("\r\n\r\n".toList ++ body))) : Str) <:+: postJsonRequestStr path host body := by
      refine ⟨"POST ".toList ++ (path ++ (" HTTP/1.0\r\nHost: ".toList
        ++ (host ++ "\r\nContent-Type: application/json\r\n".toList))),
        "\r\n".toList, ?_⟩
      rw [hreq]
      simp
    refine ⟨?_, fun he => absurd he hb, fun _ => hCL, ⟨fun _ => hb, fun _ => ?_⟩⟩
    · refine ⟨"POST ".toList ++ (path ++ (" HTTP/1.0\r\nHost: ".toList
        ++ (host ++ "\r\n".toList))),
        "\r\n".toList ++ (("Content-Length: ".toList ++ (natDecimal body.length
          ++ ("\r\n\r\n".toList ++ body))) ++ "\r\n".toList), ?_⟩
      rw [hreq]
      simp
    · have hpp : ("Content-Length".toList : Str) <+: ("Content-Length: ".toList
          ++ (natDecimal body.length ++ ("\r\n\r\n".toList ++ body))) := by
        have he : ("Content-Length: ".toList : Str)
            = "Content-Length".toList ++ ": ".toList := by decide
        rw [he, List.append_assoc]
        exact List.prefix_append _ _
      exact hpp.isInfix.trans hCL

/-- Witness for C10: with path `/` and host `example.org`, the body `hi`
produces a request with both headers, and the empty body produces one
without `Content-Length`. -/
theorem post_json_headers_witness :
    ("Content-Type: application/json".toList
        <:+: postJsonRequestStr "/".toList "example.org".toList "hi".toList)
    ∧ ¬ ("Content-Length".toList
        <:+: postJsonRequestStr "/".toList "example.org".toList [])
    ∧ (("Content-Length".toList
        <:+: postJsonRequestStr "/".toList "example.org".toList "hi".toList)
      ↔ "hi".toList ≠ []) := by
  refine ⟨(post_json_headers "/".toList "example.org".toList "hi".toList
      (by decide) (by decide)).1, ?_,
    (post_json_headers "/".toList "example.org".toList "hi".toList
      (by decide) (by decide)).2.2.2⟩
  intro h
  exact ((post_json_headers "/".toList "example.org".toList [] (by decide)
    (by decide)).2.2.2.mp h) rfl

/-- C6: for every 2-byte method-select reply, a first byte other than
`0x05` terminates the handshake with `InvalidServerVersion`, and a first
byte `0x05` with a second byte different from the single offered method
code terminates it with `InvalidAuthMethod`; in both cases the only bytes
written are the 3-byte greeting. -/
theorem greeting_check (proxy : Str) (target : Addr) (auth : SocksAuth)
    (b0 b1 : Nat) (rest w : List Nat) :
    (b0 ≠ 5 → handshake proxy target auth ⟨b0 :: b1 :: rest, w⟩
        = (.error .InvalidServerVersion, ⟨rest, w ++ [5, 1, auth.method.code]⟩))
    ∧ (b0 = 5 → b1 ≠ auth.method.code → handshake proxy target auth ⟨b0 :: b1 :: rest, w⟩
        = (.error .InvalidAuthMethod, ⟨rest, w ++ [5, 1, auth.method.code]⟩)) := by
  constructor
  · intro h
    simp [handshake, writeAll, read2, methodSelectCheck, beq_eq_false_iff_ne.mpr h]
  · intro h0 h1
    subst h0
    simp [handshake, writeAll, read2, methodSelectCheck, beq_eq_false_iff_ne.mpr h1]

/-- Witness for C6: a reply with wrong version `4`, and a version-5 reply
whose chosen method `0xFF` differs from the offered plain method. -/
theorem greeting_check_witness :
    handshake [] egAddr SocksAuth.new ⟨[4, 0], []⟩
      = (.error .InvalidServerVersion, ⟨[], [] ++ [5, 1, SocksAuth.new.method.code]⟩)
    ∧ handshake [] egAddr (SocksAuth.new_plain [117] [112]) ⟨[5, 255], []⟩
      = (.error .InvalidAuthMethod,
          ⟨[], [] ++ [5, 1, (SocksAuth.new_plain [117] [112]).method.code]⟩) :=
  ⟨(greeting_check [] egAddr SocksAuth.new 4 0 [] []).1 (by decide),
    (greeting_check [] egAddr (SocksAuth.new_plain [117] [112]) 5 255 [] []).2 rfl (by decide)⟩

end Rhttp
